import Mathlib

/-!
Shallow embedding of the bright-source masking engine of the `desitarget`
repository (`py/desitarget/brightmask.py` and `py/desitarget/geomask.py`).

Modelling conventions:
* numpy floating-point arithmetic on catalog columns is embedded as exact
  rational arithmetic (`ℚ`); the geometric primitives of `geomask.py` that
  use trigonometry are embedded over `ℝ`.
* the transcendental primitives supplied by external libraries
  (astropy `search_around_sky` angular separations, numpy `log10`) are
  passed to the catalog-level functions as explicit function parameters,
  so every theorem about those functions holds for the actual library
  functions as a special case.
* fallible Python code (code that can raise) is embedded in `Option`,
  with `none` standing for a raised exception.
-/

/-- One row of a bright-source mask catalog, as produced by
`brightmask.make_bright_source_mask` (columns `RA`, `DEC`, `TARGETID`,
`IN_RADIUS`, `NEAR_RADIUS`, `E1`, `E2`, `TYPE`).  Radii are in arcseconds,
the center is in degrees. -/
structure MaskEntry where
  RA : ℚ
  DEC : ℚ
  TARGETID : ℕ
  IN_RADIUS : ℚ
  NEAR_RADIUS : ℚ
  E1 : ℚ
  E2 : ℚ
  TYPE : String
deriving DecidableEq

/-- One row of a target catalog (the columns of `desitarget.cuts.select_targets`
output that the masking engine reads: position, provenance identity fields and
the `DESI_TARGET` bit accumulator).  Positions are real-valued because
synthesized safe locations are produced by the trigonometric boundary
generators. -/
structure Targ where
  RA : ℝ
  DEC : ℝ
  BRICK_OBJID : ℕ
  BRICKID : ℕ
  RELEASE : ℕ
  DESI_TARGET : ℕ

/-- `brightmask._rexlike`: whether a sweeps `TYPE` string denotes a REX
(round exponential) object.  The Python code also tests the byte-string
variants, which collapse onto the same strings in this embedding. -/
def rexlike (t : String) : Bool := t == "REX" || t == "REX "

/-- Modelled from the spec: `desitarget.cuts._psflike` is imported by
`brightmask.py` but `cuts.py` is not under `src/`.  The spec describes it as
the classifier for point-like (PSF) morphology, mirroring `_rexlike`; we model
it as equality with the sweeps `PSF` type string (fitsio-padded variant
included, as for `_rexlike`). -/
def psflike (t : String) : Bool := t == "PSF" || t == "PSF "

/-- A mask row is treated as a circle-on-the-sky mask iff its `TYPE` is
REX-like or PSF-like (`brightmask.is_in_bright_mask`, line 701). -/
def rexOrPsf (m : MaskEntry) : Bool := rexlike m.TYPE || psflike m.TYPE

/-- Python `max()` over a nonempty numpy column (raises on an empty column;
callers of this function in the embedding branch on emptiness first). -/
def maxQ : List ℚ → ℚ
  | [] => 0
  | x :: xs => xs.foldl max x

/-- Modelled from the spec: `desitarget.targets.encode_targetid` is not under
`src/`.  The spec says the identity is "a unique integer derived
deterministically from catalog provenance fields (object id, brick/tile id,
data-release id)"; we model it as an injective bit-packing of those fields
(plus the sky marker used for safe locations). -/
def encode_targetid (objid brickid release sky : ℕ) : ℕ :=
  objid + brickid * 2 ^ 22 + release * 2 ^ 42 + sky * 2 ^ 59

/-- The angular separation (arcseconds) between a target and a mask center, as
computed by astropy's `search_around_sky`/`d2d`.  Supplied as a parameter: the
separations are external library output, and every theorem below holds for
every separation function. -/
abbrev SepOracle := Targ → MaskEntry → ℚ

/-- The per-pair result of `geomask.is_in_ellipse` for a target against a mask
scaled to a given radius, `none` when the (float) computation raises.  Supplied
as a parameter to the catalog-level crossmatch; the real-geometry instance is
`ellOracleR` below. -/
abbrev EllOracle := Targ → MaskEntry → ℚ → Option Bool

/-- The flag contribution of one matched (target, mask) pair of
`brightmask.is_in_bright_mask`: circle-mask pairs compare the separation
against the mask radii (lines 744-749), ellipse-mask pairs defer to
`is_in_ellipse` (lines 730-736; that call can raise, hence `Option`);
`inonly` skips the near computation. -/
def crossStep (sep : SepOracle) (ell : EllOracle) (inonly : Bool) (t : Targ)
    (acc : Bool × Bool) (m : MaskEntry) : Option (Bool × Bool) :=
  if rexOrPsf m then
    pure (acc.1 || decide (sep t m < m.IN_RADIUS),
          acc.2 || (!inonly && decide (sep t m < m.NEAR_RADIUS)))
  else do
    let bIn ← ell t m m.IN_RADIUS
    let bNear ← if inonly then pure false else ell t m m.NEAR_RADIUS
    pure (acc.1 || bIn, acc.2 || bNear)

/-- The flags of one target under `brightmask.is_in_bright_mask`: a
(target, mask) pair exists when the separation is within the search bound
`maxrad`, and the target's flags are the OR of the contributions over its
pairs. -/
def inNearOne (sep : SepOracle) (ell : EllOracle) (masks : List MaskEntry)
    (maxrad : ℚ) (inonly : Bool) (t : Targ) : Option (Bool × Bool) :=
  (masks.filter (fun m => sep t m ≤ maxrad)).foldlM
    (crossStep sep ell inonly t) (false, false)

/-- `brightmask.is_in_bright_mask`: given targets and a mask catalog, the
`in_mask` and `near_mask` boolean arrays.  The search bound `maxrad` is the
maximum `NEAR_RADIUS` over the mask catalog (`IN_RADIUS` when `inonly`);
Python's `max()` raises on an empty catalog, and an ellipse-mask pair can
raise inside `is_in_ellipse`, hence `Option`. -/
def is_in_bright_mask (sep : SepOracle) (ell : EllOracle) (targs : List Targ)
    (masks : List MaskEntry) (inonly : Bool) : Option (List Bool × List Bool) :=
  if masks.isEmpty then none
  else
    let maxrad := if inonly then maxQ (masks.map MaskEntry.IN_RADIUS)
      else maxQ (masks.map MaskEntry.NEAR_RADIUS)
    (targs.mapM (inNearOne sep ell masks maxrad inonly)).map
      (fun res => (res.map Prod.fst, res.map Prod.snd))

/-- One row of a sweeps bright-source catalog, with the columns read by
`brightmask.make_bright_source_mask`: position, provenance fields, per-band
fluxes and observation counts (aligned with the requested band list), the
exponential- and deVaucouleurs-profile shape columns, and the morphological
`TYPE`. -/
structure SweepObj where
  RA : ℚ
  DEC : ℚ
  OBJID : ℕ
  BRICKID : ℕ
  RELEASE : ℕ
  FLUX : List ℚ
  NOBS : List ℕ
  SHAPEEXP_R : ℚ
  SHAPEEXP_E1 : ℚ
  SHAPEEXP_E2 : ℚ
  SHAPEDEV_R : ℚ
  SHAPEDEV_E1 : ℚ
  SHAPEDEV_E2 : ℚ
  TYPE : String
deriving DecidableEq

/-- `brightmask.infac`: factor by which the "in" radius is smaller than the
"near" radius. -/
def infac : ℚ := 0.5

/-- `brightmask.nearfac = 1./infac`. -/
def nearfac : ℚ := 1 / infac

/-- The per-band fluxes of a source after zeroing every band with
`NOBS == 0` (`make_bright_source_mask`, lines 513-517). -/
def zeroedFluxes (o : SweepObj) : List ℚ :=
  (o.FLUX.zip o.NOBS).map (fun p => if p.2 = 0 then 0 else p.1)

/-- Whether a source passes the brightness cut: some zeroed band flux exceeds
that band's flux limit (`make_bright_source_mask`, line 518). -/
def retained (fluxlim : List ℚ) (o : SweepObj) : Bool :=
  ((zeroedFluxes o).zip fluxlim).any (fun p => decide (p.2 < p.1))

/-- The Tycho/BOSS in-radius law for PSF-like sources,
`infac*(0.0802*B*B - 1.860*B + 11.625)*60.` with `B` the magnitude of the
brightest zeroed flux (`make_bright_source_mask`, line 552; arcmin converted
to arcsec). -/
def tychoInRadius (B : ℚ) : ℚ :=
  infac * (0.0802 * B * B - 1.860 * B + 11.625) * 60

/-- The mask record built from one retained source
(`make_bright_source_mask`, lines 527-564): shape defaults to the exponential
profile, is overridden by the deVaucouleurs profile when that radius is
larger, and for PSF-like types the radius (only) is replaced by the Tycho law
applied to the magnitude `magOf fluxmax` (where `magOf` stands for numpy's
`22.5 - 2.5*log10`, an external transcendental primitive). -/
def mkMaskEntry (magOf : ℚ → ℚ) (o : SweepObj) : MaskEntry :=
  let fluxmax := maxQ (zeroedFluxes o)
  let mags := magOf fluxmax
  let in0 := if o.SHAPEEXP_R < o.SHAPEDEV_R then o.SHAPEDEV_R else o.SHAPEEXP_R
  let e1 := if o.SHAPEEXP_R < o.SHAPEDEV_R then o.SHAPEDEV_E1 else o.SHAPEEXP_E1
  let e2 := if o.SHAPEEXP_R < o.SHAPEDEV_R then o.SHAPEDEV_E2 else o.SHAPEEXP_E2
  let in_radius := if psflike o.TYPE then tychoInRadius mags else in0
  ⟨o.RA, o.DEC, encode_targetid o.OBJID o.BRICKID o.RELEASE 0,
    in_radius, in_radius * nearfac, e1, e2, o.TYPE⟩

/-- The catalog-level core of `brightmask.make_bright_source_mask` (the I/O
and parallel collection around it are out of scope): keep the sources passing
the brightness cut and build a mask record for each.  `fluxlim` is the list
of per-band flux limits (`10.**((22.5-maglim)/2.5)` computed from the
magnitude limits). -/
def make_bright_source_mask (fluxlim : List ℚ) (magOf : ℚ → ℚ)
    (objs : List SweepObj) : List MaskEntry :=
  (objs.filter (retained fluxlim)).map (mkMaskEntry magOf)

/-- `brightmask.is_bright_source`: a target is itself a mask iff its
TARGETID (encoded from `BRICK_OBJID`, `BRICKID`, `RELEASE`) lies in the set of
mask TARGETIDs (exact set intersection, no spatial information). -/
def is_bright_source (targs : List Targ) (masks : List MaskEntry) : List Bool :=
  targs.map (fun t =>
    masks.any (fun m =>
      m.TARGETID == encode_targetid t.BRICK_OBJID t.BRICKID t.RELEASE 0))

/-- `brightmask.set_target_bits`: OR the `BRIGHT_OBJECT` (identity self-match),
`IN_BRIGHT_OBJECT` and `NEAR_BRIGHT_OBJECT` bits into a copy of the
`DESI_TARGET` column.  The bit positions come from `data/targetmask.yaml`
(not under `src/`), so they are parameters; each `desi_mask` value is the
single bit `2 ^ b`. -/
def set_target_bits (bBright bIn bNear : ℕ) (sep : SepOracle) (ell : EllOracle)
    (targs : List Targ) (masks : List MaskEntry) : Option (List ℕ) :=
  match is_in_bright_mask sep ell targs masks false with
  | none => none
  | some inNear =>
    let bo := is_bright_source targs masks
    some ((((targs.map Targ.DESI_TARGET).zip bo).zip (inNear.1.zip inNear.2)).map
      (fun p =>
        ((p.1.1 ||| (if p.1.2 then 2 ^ bBright else 0))
          ||| (if p.2.1 then 2 ^ bIn else 0))
          ||| (if p.2.2 then 2 ^ bNear else 0)))

/-- numpy `np.radians`: degrees to radians. -/
noncomputable def radiansR (x : ℝ) : ℝ := x * (Real.pi / 180)

/-- numpy `np.arctan2 y x` (note the argument order), as the argument of the
complex number `x + y*i`; both give `0` at the origin. -/
noncomputable def atan2 (y x : ℝ) : ℝ := Complex.arg ⟨x, y⟩

/-- A 2x2 real matrix with rows `(a b)` and `(c d)`, the shape of the ellipse
transform of `geomask.ellipse_matrix`. -/
structure Mat2 where
  a : ℝ
  b : ℝ
  c : ℝ
  d : ℝ

/-- The determinant `a*d - b*c` of a 2x2 matrix. -/
noncomputable def mat2_det (M : Mat2) : ℝ := M.a * M.d - M.b * M.c

/-- The exact 2x2 inverse `adj(M)/det(M)` computed by `np.linalg.inv` (which
raises `LinAlgError` when the determinant is zero; callers test the
determinant before using this). -/
noncomputable def mat2_inv (M : Mat2) : Mat2 :=
  ⟨M.d / mat2_det M, -M.b / mat2_det M, -M.c / mat2_det M, M.a / mat2_det M⟩

/-- The eccentricity `np.hypot e1 e2` of `geomask.ellipse_matrix`. -/
noncomputable def eccVal (e1 e2 : ℝ) : ℝ := Real.sqrt (e1 ^ 2 + e2 ^ 2)

/-- The position angle `np.arctan2(e2, e1) / 2` of `geomask.ellipse_matrix`. -/
noncomputable def thetaVal (e1 e2 : ℝ) : ℝ := atan2 e2 e1 / 2

/-- The semi-major to semi-minor axis ratio of `geomask.ellipse_matrix`,
lines 73-78: initialized to `maxab = 1000`, set to `(1+e)/(1-e)` where
`e < 1`, then clamped back to `maxab` where it exceeds it. -/
noncomputable def abVal (e1 e2 : ℝ) : ℝ :=
  let e := eccVal e1 e2
  if e < 1 then (if 1000 < (1 + e) / (1 - e) then 1000 else (1 + e) / (1 - e))
  else 1000

/-- `geomask.ellipse_matrix` (scalar case): the 2x2 map
`r_deg * [[ct/ab, st], [-st/ab, ct]]` from points measured in
half-light-radius units to RA/Dec offsets in degrees. -/
noncomputable def ellipse_matrix (r e1 e2 : ℝ) : Mat2 :=
  let theta := thetaVal e1 e2
  let ct := Real.cos theta
  let st := Real.sin theta
  let ab := abVal e1 e2
  let rdeg := r / 3600
  ⟨rdeg * (ct / ab), rdeg * st, rdeg * (-st / ab), rdeg * ct⟩

/-- The back-transformed tangent-plane offset vector of a query point with
respect to an ellipse center: the RA offset carries the `cos(dec)` spherical
correction, and the pair is mapped through the inverted ellipse matrix
(`geomask.is_in_ellipse`, lines 183-193). -/
noncomputable def ellOffset (ras decs RAcen DECcen : ℝ) (Ginv : Mat2) : ℝ × ℝ :=
  let dra := (ras - RAcen) * Real.cos (radiansR decs)
  let ddec := decs - DECcen
  (Ginv.a * dra + Ginv.b * ddec, Ginv.c * dra + Ginv.d * ddec)

open Classical in
/-- `geomask.is_in_ellipse` (scalar query): invert the ellipse matrix
(`np.linalg.inv` raises `LinAlgError` on a singular matrix, modelled by
`none`), form the tangent-plane offsets with the `cos(dec)` RA correction,
and test whether the back-transformed offset vector has norm strictly
below 1. -/
noncomputable def is_in_ellipse (ras decs RAcen DECcen r e1 e2 : ℝ) : Option Bool :=
  let G := ellipse_matrix r e1 e2
  if mat2_det G = 0 then none
  else
    let v := ellOffset ras decs RAcen DECcen (mat2_inv G)
    some (decide (Real.sqrt (v.1 ^ 2 + v.2 ^ 2) < 1))

open Classical in
/-- `geomask.is_in_ellipse_matrix`: the same containment test with the
transform matrix passed directly. -/
noncomputable def is_in_ellipse_matrix (ras decs RAcen DECcen : ℝ) (G : Mat2) :
    Option Bool :=
  if mat2_det G = 0 then none
  else
    let v := ellOffset ras decs RAcen DECcen (mat2_inv G)
    some (decide (Real.sqrt (v.1 ^ 2 + v.2 ^ 2) < 1))

/-- The `is_in_ellipse` pair test used by the crossmatch: the mask's center,
ellipticity and the selected radius are taken from the mask row
(`brightmask.is_in_bright_mask`, lines 730-736).  This is the real-geometry
instance of the `EllOracle` parameter. -/
noncomputable def ellOracleR : EllOracle := fun t m rad =>
  is_in_ellipse t.RA t.DEC (m.RA : ℝ) (m.DEC : ℝ) (rad : ℝ) (m.E1 : ℝ) (m.E2 : ℝ)

/-- numpy `np.linspace a b n`: `n` evenly spaced samples from `a` to `b`,
both endpoints included (step `(b-a)/(n-1)`); a single sample is `a`. -/
noncomputable def linspace (a b : ℝ) (n : ℕ) : List ℝ :=
  if n = 1 then [a]
  else (List.range n).map (fun k : ℕ => a + (k : ℝ) * (b - a) / ((n : ℝ) - 1))

/-- `geomask.ellipse_boundary`: map `nloc` points of the unit circle at the
parametric angles `np.linspace 0 2π nloc` through the ellipse matrix and
project onto the sphere (`dec = DECcen + ddec`,
`ra = RAcen + dra / cos(radians dec)`). -/
noncomputable def ellipse_boundary (RAcen DECcen r e1 e2 : ℝ) (nloc : ℕ) :
    List ℝ × List ℝ :=
  let T := ellipse_matrix r e1 e2
  let pts := (linspace 0 (2 * Real.pi) nloc).map (fun ang =>
    let dra := T.a * Real.sin ang + T.b * Real.cos ang
    let ddec := T.c * Real.sin ang + T.d * Real.cos ang
    let dec := DECcen + ddec
    (RAcen + dra / Real.cos (radiansR dec), dec))
  (pts.map Prod.fst, pts.map Prod.snd)

/-- The sub-catalog of a shard: the targets selected by a boolean membership
list (the natural parallelization of the crossmatch partitions the target
catalog this way; spec section 5). -/
def shardSelect {α : Type} : List Bool → List α → List α
  | [], _ => []
  | _, [] => []
  | b :: bs, x :: xs =>
    if b then x :: shardSelect bs xs else shardSelect bs xs

/-- Scatter a shard's per-target flags back to full catalog length: selected
positions take the next shard value, unselected positions are `False`. -/
def shardScatter : List Bool → List Bool → List Bool
  | [], _ => []
  | b :: bs, vs =>
    if b then vs.headD false :: shardScatter bs vs.tail
    else false :: shardScatter bs vs

/-- Element-wise bitwise-OR reduction of two flag arrays (the shard merge of
spec section 5). -/
def orMerge (xs ys : List Bool) : List Bool := List.zipWith or xs ys


/-! ## Helper lemmas -/

theorem le_foldl_max (l : List ℚ) (a b : ℚ) (h : a ≤ b) : a ≤ l.foldl max b := by
  induction l generalizing b with
  | nil => simpa using h
  | cons c cs ih => exact ih (max b c) (le_trans h (le_max_left b c))

theorem mem_le_foldl_max : ∀ (l : List ℚ) (x b : ℚ), x ∈ l → x ≤ l.foldl max b
  | [], _, _, hx => absurd hx (List.not_mem_nil _)
  | c :: cs, x, b, hx => by
    rcases List.mem_cons.mp hx with h | h
    · subst h; exact le_foldl_max cs x (max b x) (le_max_right b x)
    · exact mem_le_foldl_max cs x (max b c) h

theorem le_maxQ (l : List ℚ) (x : ℚ) (hx : x ∈ l) : x ≤ maxQ l := by
  cases l with
  | nil => cases hx
  | cons a as =>
    rcases List.mem_cons.mp hx with h | h
    · subst h; exact le_foldl_max as x x le_rfl
    · exact mem_le_foldl_max as x a h

theorem foldl_or_pair (p q : MaskEntry → Bool) :
    ∀ (l : List MaskEntry) (acc : Bool × Bool),
      l.foldl (fun a m => (a.1 || p m, a.2 || q m)) acc
        = (acc.1 || l.any p, acc.2 || l.any q)
  | [], acc => by simp
  | m :: ms, acc => by
    simp only [List.foldl_cons, foldl_or_pair p q ms, List.any_cons, Bool.or_assoc]

theorem foldlM_pointlike (sep : SepOracle) (ell : EllOracle) (inonly : Bool)
    (t : Targ) :
    ∀ (ms : List MaskEntry) (acc : Bool × Bool), (∀ m ∈ ms, rexOrPsf m = true) →
      ms.foldlM (crossStep sep ell inonly t) acc
        = some (acc.1 || ms.any (fun m => decide (sep t m < m.IN_RADIUS)),
            acc.2 || (!inonly
              && ms.any (fun m => decide (sep t m < m.NEAR_RADIUS))))
  | [], acc, _ => by simp
  | m :: ms, acc, hpt => by
    have hm : rexOrPsf m = true := hpt m (List.mem_cons_self m ms)
    have hms : ∀ m' ∈ ms, rexOrPsf m' = true :=
      fun m' h => hpt m' (List.mem_cons_of_mem m h)
    rw [List.foldlM_cons, crossStep, if_pos hm]
    show ms.foldlM (crossStep sep ell inonly t) _ = _
    rw [foldlM_pointlike sep ell inonly t ms _ hms]
    cases inonly <;> simp [List.any_cons, Bool.or_assoc, Bool.and_or_distrib_left]

theorem any_filter_of_le (sep : SepOracle) (t : Targ) (maxrad : ℚ)
    (rad : MaskEntry → ℚ) :
    ∀ ms : List MaskEntry, (∀ m ∈ ms, rad m ≤ maxrad) →
      (ms.filter (fun m => sep t m ≤ maxrad)).any
          (fun m => decide (sep t m < rad m))
        = ms.any (fun m => decide (sep t m < rad m))
  | [], _ => rfl
  | m :: ms, hle => by
    have hm : rad m ≤ maxrad := hle m (List.mem_cons_self m ms)
    have hms : ∀ m' ∈ ms, rad m' ≤ maxrad :=
      fun m' h => hle m' (List.mem_cons_of_mem m h)
    by_cases h : sep t m ≤ maxrad
    · rw [List.filter_cons_of_pos (by simpa using h), List.any_cons,
        List.any_cons, any_filter_of_le sep t maxrad rad ms hms]
    · have hlt : ¬ sep t m < rad m := fun hc => h (le_trans (le_of_lt hc) hm)
      rw [List.filter_cons_of_neg (by simpa using h), List.any_cons,
        any_filter_of_le sep t maxrad rad ms hms]
      simp [hlt]

theorem inNearOne_pointlike (sep : SepOracle) (ell : EllOracle)
    (masks : List MaskEntry) (maxrad : ℚ) (t : Targ)
    (hpt : ∀ m ∈ masks, rexOrPsf m = true)
    (hin : ∀ m ∈ masks, m.IN_RADIUS ≤ maxrad)
    (hnear : ∀ m ∈ masks, m.NEAR_RADIUS ≤ maxrad) :
    inNearOne sep ell masks maxrad false t
      = some (masks.any (fun m => decide (sep t m < m.IN_RADIUS)),
          masks.any (fun m => decide (sep t m < m.NEAR_RADIUS))) := by
  unfold inNearOne
  rw [foldlM_pointlike sep ell false t _ _
    (fun m h => hpt m (List.mem_of_mem_filter h))]
  rw [any_filter_of_le sep t maxrad (fun m => m.IN_RADIUS) masks hin,
    any_filter_of_le sep t maxrad (fun m => m.NEAR_RADIUS) masks hnear]
  simp

theorem mapM_eq_map {α β : Type} (f : α → Option β) (g : α → β)
    (h : ∀ x, f x = some (g x)) : ∀ l : List α, l.mapM f = some (l.map g)
  | [] => rfl
  | x :: xs => by
    rw [List.mapM_cons, h x, mapM_eq_map f g h xs]; rfl

theorem mkMaskEntry_IN (magOf : ℚ → ℚ) (o : SweepObj) :
    (mkMaskEntry magOf o).IN_RADIUS =
      if psflike o.TYPE then tychoInRadius (magOf (maxQ (zeroedFluxes o)))
      else if o.SHAPEEXP_R < o.SHAPEDEV_R then o.SHAPEDEV_R
      else o.SHAPEEXP_R := rfl

theorem mkMaskEntry_NEAR (magOf : ℚ → ℚ) (o : SweepObj) :
    (mkMaskEntry magOf o).NEAR_RADIUS
      = (mkMaskEntry magOf o).IN_RADIUS * nearfac := rfl

theorem mkMaskEntry_E1 (magOf : ℚ → ℚ) (o : SweepObj) :
    (mkMaskEntry magOf o).E1 =
      if o.SHAPEEXP_R < o.SHAPEDEV_R then o.SHAPEDEV_E1
      else o.SHAPEEXP_E1 := rfl

theorem mkMaskEntry_E2 (magOf : ℚ → ℚ) (o : SweepObj) :
    (mkMaskEntry magOf o).E2 =
      if o.SHAPEEXP_R < o.SHAPEDEV_R then o.SHAPEDEV_E2
      else o.SHAPEEXP_E2 := rfl

theorem mkMaskEntry_TYPE (magOf : ℚ → ℚ) (o : SweepObj) :
    (mkMaskEntry magOf o).TYPE = o.TYPE := rfl

theorem tychoInRadius_pos (B : ℚ) : 0 < tychoInRadius B := by
  have h : tychoInRadius B = 30 * ((802/10000) * B * B - (1860/1000) * B + 11625/1000) := by
    norm_num [tychoInRadius, infac]; ring
  rw [h]
  nlinarith [sq_nonneg (802 * B - 9300)]

/-! ## Claim theorems -/

/-- C1 (amended): for a nonempty mask catalog of point-like (PSF/REX) masks in
which every mask's `IN_RADIUS` is at most its `NEAR_RADIUS` (as holds for
every builder-produced mask with nonnegative radius, since
`NEAR_RADIUS = 2 * IN_RADIUS`), `is_in_bright_mask` flags a target `in_mask`
iff its separation to some mask is strictly below that mask's `IN_RADIUS` and
`near_mask` iff strictly below some mask's `NEAR_RADIUS` (so a target at
exactly `IN_RADIUS` is not `in_mask`). -/
theorem C1_pointlike_crossmatch (sep : SepOracle) (ell : EllOracle)
    (targs : List Targ) (masks : List MaskEntry)
    (hne : masks ≠ [])
    (hpt : ∀ m ∈ masks, rexOrPsf m = true)
    (hr : ∀ m ∈ masks, m.IN_RADIUS ≤ m.NEAR_RADIUS) :
    is_in_bright_mask sep ell targs masks false
      = some
        (targs.map (fun t =>
          masks.any (fun m => decide (sep t m < m.IN_RADIUS))),
         targs.map (fun t =>
          masks.any (fun m => decide (sep t m < m.NEAR_RADIUS)))) := by
  unfold is_in_bright_mask
  rw [if_neg (by simpa [List.isEmpty_iff] using hne)]
  have hnear : ∀ m ∈ masks,
      m.NEAR_RADIUS ≤ maxQ (masks.map MaskEntry.NEAR_RADIUS) :=
    fun m h => le_maxQ _ _ (List.mem_map_of_mem _ h)
  have hin : ∀ m ∈ masks,
      m.IN_RADIUS ≤ maxQ (masks.map MaskEntry.NEAR_RADIUS) :=
    fun m h => le_trans (hr m h) (hnear m h)
  show Option.map (fun res => (res.map Prod.fst, res.map Prod.snd))
      (List.mapM
        (inNearOne sep ell masks (maxQ (masks.map MaskEntry.NEAR_RADIUS)) false)
        targs) = _
  rw [mapM_eq_map
    (inNearOne sep ell masks (maxQ (masks.map MaskEntry.NEAR_RADIUS)) false)
    (fun t => (masks.any (fun m => decide (sep t m < m.IN_RADIUS)),
        masks.any (fun m => decide (sep t m < m.NEAR_RADIUS))))
    (fun t => inNearOne_pointlike sep ell masks _ t hpt hin hnear)]
  simp [List.map_map, Function.comp]

/-- C1 witness: the end-to-end scenario of the claim.  One PSF mask at
(RA=10, Dec=0) with `in_radius = 5`, `near_radius = 10`; four targets whose
astropy separations from it are 0, 4, 7, 12 arcsec; the crossmatch yields
`in_mask = [T,T,F,F]` and `near_mask = [T,T,T,F]`. -/
theorem C1_pointlike_crossmatch_witness :
    (([(⟨10, 0, 0, 5, 10, 0, 0, "PSF"⟩ : MaskEntry)] : List MaskEntry) ≠ []
      ∧ (∀ m ∈ [(⟨10, 0, 0, 5, 10, 0, 0, "PSF"⟩ : MaskEntry)],
          rexOrPsf m = true)
      ∧ (∀ m ∈ [(⟨10, 0, 0, 5, 10, 0, 0, "PSF"⟩ : MaskEntry)],
          m.IN_RADIUS ≤ m.NEAR_RADIUS))
    ∧ is_in_bright_mask
        (fun t _ => ([0, 4, 7, 12] : List ℚ).getD t.BRICK_OBJID 99)
        (fun _ _ _ => some false)
        [⟨10, 0, 0, 0, 0, 0⟩, ⟨10, 0, 1, 0, 0, 0⟩,
         ⟨10, 0, 2, 0, 0, 0⟩, ⟨10, 0, 3, 0, 0, 0⟩]
        [⟨10, 0, 0, 5, 10, 0, 0, "PSF"⟩] false
      = some ([true, true, false, false], [true, true, true, false]) := by
  refine ⟨⟨by decide, by decide, by decide⟩, ?_⟩
  rw [C1_pointlike_crossmatch _ _ _ _ (by decide) (by decide) (by decide)]
  decide

/-- C1 counterexample: the claim as stated fails for a point-like mask whose
`NEAR_RADIUS` is smaller than its `IN_RADIUS` (a mask catalog the claim's
universal quantifier admits): the spatial join is bounded by the maximum
`NEAR_RADIUS` (= 2 here), so a target at separation 5 from a mask with
`IN_RADIUS = 10` is never matched and `in_mask` stays `False`, although its
separation is strictly below `IN_RADIUS`. -/
theorem C1_counterexample :
    is_in_bright_mask (fun _ _ => 5) (fun _ _ _ => some false)
        [(⟨0, 0, 0, 0, 0, 0⟩ : Targ)]
        [(⟨0, 0, 0, 10, 2, 0, 0, "PSF"⟩ : MaskEntry)] false
      = some ([false], [false])
    ∧ (5 : ℚ) < (⟨0, 0, 0, 10, 2, 0, 0, "PSF"⟩ : MaskEntry).IN_RADIUS :=
  ⟨by decide, by decide⟩

/-- C3: every mask record produced by `make_bright_source_mask` has
`NEAR_RADIUS` exactly equal to `IN_RADIUS * 2`
(`nearfac = 1/infac` with `infac = 0.5`). -/
theorem C3_near_radius_double (fluxlim : List ℚ) (magOf : ℚ → ℚ)
    (objs : List SweepObj) (m : MaskEntry)
    (hm : m ∈ make_bright_source_mask fluxlim magOf objs) :
    m.NEAR_RADIUS = m.IN_RADIUS * 2 := by
  obtain ⟨o, ho, rfl⟩ := List.mem_map.mp hm
  rw [mkMaskEntry_NEAR]
  norm_num [nearfac, infac]

/-- C3 witness: a concrete extended source with half-light radius 3 arcsec
passes the flux cut and produces the mask record with `IN_RADIUS = 3`,
`NEAR_RADIUS = 6 = 3 * 2`. -/
theorem C3_near_radius_double_witness :
    ((⟨0, 0, 0, 3, 6, 0, 0, "EXP"⟩ : MaskEntry)
        ∈ make_bright_source_mask [1] (fun _ => 0)
          [⟨0, 0, 0, 0, 0, [100], [1], 3, 0, 0, 0, 0, 0, "EXP"⟩])
    ∧ (⟨0, 0, 0, 3, 6, 0, 0, "EXP"⟩ : MaskEntry).NEAR_RADIUS
        = (⟨0, 0, 0, 3, 6, 0, 0, "EXP"⟩ : MaskEntry).IN_RADIUS * 2 :=
  ⟨by with_unfolding_all decide,
    C3_near_radius_double [1] (fun _ => 0)
      [⟨0, 0, 0, 0, 0, [100], [1], 3, 0, 0, 0, 0, 0, "EXP"⟩] _
      (by with_unfolding_all decide)⟩

/-- C4 counterexample: the builder invariant fails on inputs the code
accepts.  A bright PSF-like source whose recorded exponential ellipticity is
nonzero yields a PSF mask record with `E1 = 0.3 ≠ 0` (the code never zeroes
the shape columns of PSF objects), and a bright extended source whose two
profile radii are both zero yields `IN_RADIUS = 0`, not strictly positive.
The projected triple is (is PSF-like, E1 = 0, 0 < IN_RADIUS) per record. -/
theorem C4_counterexample :
    (make_bright_source_mask [1] (fun _ => 5)
        [⟨0, 0, 0, 0, 0, [100], [1], 0, 3/10, 0, 0, 0, 0, "PSF"⟩,
         ⟨0, 0, 1, 0, 0, [100], [1], 0, 0, 0, 0, 0, 0, "EXP"⟩]).map
      (fun m => (psflike m.TYPE, decide (m.E1 = 0), decide (0 < m.IN_RADIUS)))
      = [(true, false, true), (false, true, false)] := by
  with_unfolding_all decide

/-- C4 (amended): provided every retained source is well-formed in the way
the Legacy Surveys sweeps guarantee — non-PSF sources have a positive
exponential or deVaucouleurs half-light radius, and PSF-like sources carry
zero recorded ellipticity components — every record built by
`make_bright_source_mask` has strictly positive `IN_RADIUS` and
`NEAR_RADIUS`, and PSF-like records have `E1 = E2 = 0`.  (The Tycho radius
law is strictly positive for every magnitude, so PSF radii need no data
hypothesis.) -/
theorem C4_mask_entry_invariant (fluxlim : List ℚ) (magOf : ℚ → ℚ)
    (objs : List SweepObj)
    (hshape : ∀ o ∈ objs, psflike o.TYPE = false →
      0 < o.SHAPEEXP_R ∨ 0 < o.SHAPEDEV_R)
    (hpsf : ∀ o ∈ objs, psflike o.TYPE = true →
      o.SHAPEEXP_E1 = 0 ∧ o.SHAPEEXP_E2 = 0
        ∧ o.SHAPEDEV_E1 = 0 ∧ o.SHAPEDEV_E2 = 0)
    (m : MaskEntry) (hm : m ∈ make_bright_source_mask fluxlim magOf objs) :
    0 < m.IN_RADIUS ∧ 0 < m.NEAR_RADIUS
      ∧ (psflike m.TYPE = true → m.E1 = 0 ∧ m.E2 = 0) := by
  obtain ⟨o, ho, rfl⟩ := List.mem_map.mp hm
  have hobj : o ∈ objs := List.mem_of_mem_filter ho
  have hinpos : 0 < (mkMaskEntry magOf o).IN_RADIUS := by
    rw [mkMaskEntry_IN]
    by_cases hp : psflike o.TYPE
    · rw [if_pos hp]; exact tychoInRadius_pos _
    · rw [if_neg hp]
      rcases hshape o hobj (by simpa using hp) with h1 | h2
      · by_cases hd : o.SHAPEEXP_R < o.SHAPEDEV_R
        · rw [if_pos hd]; linarith
        · rw [if_neg hd]; exact h1
      · by_cases hd : o.SHAPEEXP_R < o.SHAPEDEV_R
        · rw [if_pos hd]; exact h2
        · rw [if_neg hd]; linarith [not_lt.mp hd]
  refine ⟨hinpos, ?_, ?_⟩
  · rw [mkMaskEntry_NEAR]
    have h2 : (0 : ℚ) < nearfac := by norm_num [nearfac, infac]
    positivity
  · intro hpm
    rw [mkMaskEntry_TYPE] at hpm
    obtain ⟨he1, he2, hd1, hd2⟩ := hpsf o hobj hpm
    rw [mkMaskEntry_E1, mkMaskEntry_E2]
    constructor
    · by_cases hd : o.SHAPEEXP_R < o.SHAPEDEV_R
      · rw [if_pos hd]; exact hd1
      · rw [if_neg hd]; exact he1
    · by_cases hd : o.SHAPEEXP_R < o.SHAPEDEV_R
      · rw [if_pos hd]; exact hd2
      · rw [if_neg hd]; exact he2

set_option maxRecDepth 8000 in
/-- C4 witness: a concrete bright PSF source with zero recorded shape
satisfies the data hypotheses and produces a record with positive radii and
zero ellipticity. -/
theorem C4_mask_entry_invariant_witness :
    ((∀ o ∈ [(⟨0, 0, 0, 0, 0, [100], [1], 0, 0, 0, 0, 0, 0, "PSF"⟩ : SweepObj)],
        psflike o.TYPE = false → 0 < o.SHAPEEXP_R ∨ 0 < o.SHAPEDEV_R)
      ∧ (∀ o ∈ [(⟨0, 0, 0, 0, 0, [100], [1], 0, 0, 0, 0, 0, 0, "PSF"⟩ : SweepObj)],
        psflike o.TYPE = true →
          o.SHAPEEXP_E1 = 0 ∧ o.SHAPEEXP_E2 = 0
            ∧ o.SHAPEDEV_E1 = 0 ∧ o.SHAPEDEV_E2 = 0)
      ∧ (⟨0, 0, 0, 1299/10, 1299/5, 0, 0, "PSF"⟩ : MaskEntry)
          ∈ make_bright_source_mask [1] (fun _ => 5)
            [⟨0, 0, 0, 0, 0, [100], [1], 0, 0, 0, 0, 0, 0, "PSF"⟩])
    ∧ (0 < (⟨0, 0, 0, 1299/10, 1299/5, 0, 0, "PSF"⟩ : MaskEntry).IN_RADIUS
      ∧ 0 < (⟨0, 0, 0, 1299/10, 1299/5, 0, 0, "PSF"⟩ : MaskEntry).NEAR_RADIUS
      ∧ (psflike (⟨0, 0, 0, 1299/10, 1299/5, 0, 0, "PSF"⟩ : MaskEntry).TYPE = true →
        (⟨0, 0, 0, 1299/10, 1299/5, 0, 0, "PSF"⟩ : MaskEntry).E1 = 0
          ∧ (⟨0, 0, 0, 1299/10, 1299/5, 0, 0, "PSF"⟩ : MaskEntry).E2 = 0)) :=
  ⟨⟨by with_unfolding_all decide, by with_unfolding_all decide,
      by with_unfolding_all decide⟩,
    C4_mask_entry_invariant [1] (fun _ => 5)
      [⟨0, 0, 0, 0, 0, [100], [1], 0, 0, 0, 0, 0, 0, "PSF"⟩]
      (by with_unfolding_all decide) (by with_unfolding_all decide) _
      (by with_unfolding_all decide)⟩

theorem mapM_cons_some {α β : Type} (f : α → Option β) (x : α) (xs : List α)
    (r : List β) (h : (x :: xs).mapM f = some r) :
    ∃ y ys, f x = some y ∧ xs.mapM f = some ys ∧ r = y :: ys := by
  rw [List.mapM_cons] at h
  cases hfx : f x with
  | none => rw [hfx] at h; simp at h
  | some y =>
    rw [hfx] at h
    cases hxs : xs.mapM f with
    | none => rw [hxs] at h; simp at h
    | some ys =>
      rw [hxs] at h
      exact ⟨y, ys, rfl, rfl, by simpa using h.symm⟩

theorem mapM_length {α β : Type} (f : α → Option β) :
    ∀ (l : List α) (r : List β), l.mapM f = some r → r.length = l.length
  | [], r, h => by
    rw [show ([] : List α).mapM f = some [] from rfl] at h
    cases h; rfl
  | x :: xs, r, h => by
    obtain ⟨y, ys, _, hxs, rfl⟩ := mapM_cons_some f x xs r h
    simp [mapM_length f xs ys hxs]

theorem is_in_bright_mask_some (sep : SepOracle) (ell : EllOracle)
    (targs : List Targ) (masks : List MaskEntry) (inonly : Bool)
    (I N : List Bool)
    (h : is_in_bright_mask sep ell targs masks inonly = some (I, N)) :
    I.length = targs.length ∧ N.length = targs.length := by
  unfold is_in_bright_mask at h
  by_cases he : masks.isEmpty
  · rw [if_pos he] at h; cases h
  · rw [if_neg he] at h
    have h2 : Option.map (fun res => (res.map Prod.fst, res.map Prod.snd))
        (targs.mapM (inNearOne sep ell masks
          (if inonly = true then maxQ (masks.map MaskEntry.IN_RADIUS)
            else maxQ (masks.map MaskEntry.NEAR_RADIUS)) inonly)) = some (I, N) := h
    cases hm : targs.mapM (inNearOne sep ell masks
        (if inonly = true then maxQ (masks.map MaskEntry.IN_RADIUS)
          else maxQ (masks.map MaskEntry.NEAR_RADIUS)) inonly) with
    | none => rw [hm] at h2; cases h2
    | some res =>
      rw [hm] at h2
      have hlen := mapM_length _ _ _ hm
      have hres : (res.map Prod.fst, res.map Prod.snd) = (I, N) := by
        simpa using h2
      constructor
      · rw [← (Prod.mk.injEq _ _ _ _ |>.mp hres).1]; simpa using hlen
      · rw [← (Prod.mk.injEq _ _ _ _ |>.mp hres).2]; simpa using hlen

/-- C6: under `set_target_bits`, a target whose TARGETID (encoded from
`BRICK_OBJID`, `BRICKID`, `RELEASE`) equals some mask's TARGETID gets the
`BRIGHT_OBJECT` bit set in its output `DESI_TARGET` — for every separation
function, i.e. regardless of the target's spatial position — and a target
with no identity match is not flagged by the self-match step
(`is_bright_source` is `False` for it). -/
theorem C6_identity_selfmatch (bBright bIn bNear : ℕ) (sep : SepOracle)
    (ell : EllOracle) (targs : List Targ) (masks : List MaskEntry)
    (dts : List ℕ)
    (hrun : set_target_bits bBright bIn bNear sep ell targs masks = some dts)
    (i : ℕ) (t : Targ) (ht : targs[i]? = some t) :
    (masks.any (fun m =>
        m.TARGETID == encode_targetid t.BRICK_OBJID t.BRICKID t.RELEASE 0) = true
      → (dts.getD i 0).testBit bBright = true)
    ∧ (masks.any (fun m =>
        m.TARGETID == encode_targetid t.BRICK_OBJID t.BRICKID t.RELEASE 0) = false
      → (is_bright_source targs masks).getD i false = false) := by
  have hbo : (is_bright_source targs masks)[i]? = some
      (masks.any (fun m =>
        m.TARGETID == encode_targetid t.BRICK_OBJID t.BRICKID t.RELEASE 0)) := by
    unfold is_bright_source
    rw [List.getElem?_map, ht]
    rfl
  constructor
  · intro hmatch
    unfold set_target_bits at hrun
    cases hin : is_in_bright_mask sep ell targs masks false with
    | none => rw [hin] at hrun; cases hrun
    | some inNear =>
      rw [hin] at hrun
      have hlen := is_in_bright_mask_some sep ell targs masks false
        inNear.1 inNear.2 (by rw [hin])
      have hi : i < targs.length := (List.getElem?_eq_some_iff.mp ht).1
      have hi1 : i < inNear.1.length := by omega
      have hi2 : i < inNear.2.length := by omega
      have hz2 : (inNear.1.zip inNear.2)[i]? = some (inNear.1[i], inNear.2[i]) := by
        rw [List.getElem?_zip_eq_some]
        exact ⟨List.getElem?_eq_getElem hi1, List.getElem?_eq_getElem hi2⟩
      have hz1 : ((targs.map Targ.DESI_TARGET).zip
          (is_bright_source targs masks))[i]? = some (t.DESI_TARGET,
            masks.any (fun m =>
              m.TARGETID == encode_targetid t.BRICK_OBJID t.BRICKID t.RELEASE 0)) := by
        rw [List.getElem?_zip_eq_some]
        refine ⟨?_, hbo⟩
        rw [List.getElem?_map, ht]
        rfl
      have hzz : (((targs.map Targ.DESI_TARGET).zip
          (is_bright_source targs masks)).zip
            (inNear.1.zip inNear.2))[i]? = some ((t.DESI_TARGET,
              masks.any (fun m =>
                m.TARGETID == encode_targetid t.BRICK_OBJID t.BRICKID t.RELEASE 0)),
              (inNear.1[i], inNear.2[i])) := by
        rw [List.getElem?_zip_eq_some]
        exact ⟨hz1, hz2⟩
      have hdts : dts[i]? = some
          (((t.DESI_TARGET ||| (if masks.any (fun m =>
              m.TARGETID == encode_targetid t.BRICK_OBJID t.BRICKID t.RELEASE 0)
              then 2 ^ bBright else 0))
            ||| (if inNear.1[i] then 2 ^ bIn else 0))
            ||| (if inNear.2[i] then 2 ^ bNear else 0)) := by
        have hd := Option.some.inj hrun
        rw [← hd, List.getElem?_map, hzz]
        rfl
      rw [List.getD_eq_getElem?_getD, hdts, hmatch]
      simp [Nat.testBit_or, Nat.testBit_two_pow_self]
  · intro hnomatch
    rw [List.getD_eq_getElem?_getD, hbo, hnomatch]
    rfl

/-- C6 witness: one mask with `TARGETID = encode_targetid 7 3 1` and two
targets, the first carrying exactly the provenance `(7, 3, 1)` and the second
not; under an arbitrary separation of 1000000 arcsec the first target's
output `DESI_TARGET` has the `BRIGHT_OBJECT` bit (bit 5) set and the second
target has `is_bright_source = False`. -/
theorem C6_identity_selfmatch_witness :
    (set_target_bits 5 6 7 (fun _ _ => 1000000) (fun _ _ _ => some false)
        [⟨0, 0, 7, 3, 1, 0⟩, ⟨0, 0, 8, 3, 1, 0⟩]
        [⟨0, 0, encode_targetid 7 3 1 0, 5, 10, 0, 0, "PSF"⟩]
      = some [2 ^ 5, 0])
    ∧ (([(⟨0, 0, encode_targetid 7 3 1 0, 5, 10, 0, 0, "PSF"⟩ : MaskEntry)].any
        (fun m => m.TARGETID == encode_targetid 7 3 1 0) = true
      → (([2 ^ 5, 0] : List ℕ).getD 0 0).testBit 5 = true))
    ∧ (([(⟨0, 0, encode_targetid 7 3 1 0, 5, 10, 0, 0, "PSF"⟩ : MaskEntry)].any
        (fun m => m.TARGETID == encode_targetid 8 3 1 0) = false
      → (is_bright_source [⟨0, 0, 7, 3, 1, 0⟩, ⟨0, 0, 8, 3, 1, 0⟩]
          [⟨0, 0, encode_targetid 7 3 1 0, 5, 10, 0, 0, "PSF"⟩]).getD 1 false
          = false)) := by
  refine ⟨by with_unfolding_all decide, ?_, ?_⟩
  · exact (C6_identity_selfmatch 5 6 7 (fun _ _ => 1000000)
      (fun _ _ _ => some false)
      [⟨0, 0, 7, 3, 1, 0⟩, ⟨0, 0, 8, 3, 1, 0⟩]
      [⟨0, 0, encode_targetid 7 3 1 0, 5, 10, 0, 0, "PSF"⟩] [2 ^ 5, 0]
      (by with_unfolding_all decide) 0 ⟨0, 0, 7, 3, 1, 0⟩ rfl).1
  · exact (C6_identity_selfmatch 5 6 7 (fun _ _ => 1000000)
      (fun _ _ _ => some false)
      [⟨0, 0, 7, 3, 1, 0⟩, ⟨0, 0, 8, 3, 1, 0⟩]
      [⟨0, 0, encode_targetid 7 3 1 0, 5, 10, 0, 0, "PSF"⟩] [2 ^ 5, 0]
      (by with_unfolding_all decide) 1 ⟨0, 0, 8, 3, 1, 0⟩ rfl).2

theorem shardSelect_nil {α : Type} (l : List α) : shardSelect [] l = [] := by
  cases l <;> rfl

theorem mapM_shardSelect {α β : Type} (f : α → Option β) :
    ∀ (sel : List Bool) (l : List α) (r : List β), l.mapM f = some r →
      (shardSelect sel l).mapM f = some (shardSelect sel r)
  | [], l, r, h => by rw [shardSelect_nil, shardSelect_nil]; rfl
  | b :: bs, [], r, h => by
    rw [show ([] : List α).mapM f = some [] from rfl] at h
    cases h; rfl
  | b :: bs, x :: xs, r, h => by
    obtain ⟨y, ys, hfx, hxs, rfl⟩ := mapM_cons_some f x xs r h
    cases b with
    | false =>
      simpa [shardSelect] using mapM_shardSelect f bs xs ys hxs
    | true =>
      simp only [shardSelect, if_pos]
      rw [List.mapM_cons, hfx, mapM_shardSelect f bs xs ys hxs]
      rfl

theorem shardSelect_map {α β : Type} (f : α → β) :
    ∀ (sel : List Bool) (l : List α),
      shardSelect sel (l.map f) = (shardSelect sel l).map f
  | [], l => by rw [shardSelect_nil, shardSelect_nil]; rfl
  | b :: bs, [] => rfl
  | b :: bs, x :: xs => by
    cases b with
    | false => simpa [shardSelect] using shardSelect_map f bs xs
    | true => simp [shardSelect, shardSelect_map f bs xs]

theorem shardScatter_shardSelect :
    ∀ (sel : List Bool) (vals : List Bool), sel.length = vals.length →
      shardScatter sel (shardSelect sel vals)
        = List.zipWith (fun b v => b && v) sel vals
  | [], vals, _ => by rw [shardSelect_nil]; rfl
  | b :: bs, [], h => by simp at h
  | b :: bs, v :: vs, h => by
    cases b with
    | false =>
      show false :: shardScatter bs (shardSelect bs vs)
        = (false && v) :: List.zipWith (fun b v => b && v) bs vs
      rw [Bool.false_and]
      exact congrArg _ (shardScatter_shardSelect bs vs (by simpa using h))
    | true =>
      show v :: shardScatter bs (shardSelect bs vs)
        = (true && v) :: List.zipWith (fun b v => b && v) bs vs
      rw [Bool.true_and]
      exact congrArg _ (shardScatter_shardSelect bs vs (by simpa using h))

theorem zipWith_getD (f : Bool → Bool → Bool) (hf : f false false = false) :
    ∀ (xs ys : List Bool), xs.length = ys.length → ∀ i,
      (List.zipWith f xs ys).getD i false = f (xs.getD i false) (ys.getD i false)
  | [], [], _, i => by simp [hf]
  | [], y :: ys, h, i => by simp at h
  | x :: xs, [], h, i => by simp at h
  | x :: xs, y :: ys, h, i => by
    cases i with
    | zero => rfl
    | succ n =>
      simpa using zipWith_getD f hf xs ys (by simpa using h) n

theorem orMerge_length (xs ys : List Bool) (h : xs.length = ys.length) :
    (orMerge xs ys).length = xs.length := by
  simp [orMerge, h]

theorem foldl_orMerge_getD :
    ∀ (ls : List (List Bool)) (acc : List Bool),
      (∀ l ∈ ls, l.length = acc.length) → ∀ i,
      (ls.foldl orMerge acc).getD i false
        = (acc.getD i false || ls.any (fun l => l.getD i false))
  | [], acc, _, i => by simp
  | l :: ls, acc, h, i => by
    have hl : l.length = acc.length := h l (List.mem_cons_self l ls)
    have hrec : ∀ l' ∈ ls, l'.length = (orMerge acc l).length := by
      intro l' hm
      rw [orMerge_length acc l hl.symm]
      exact h l' (List.mem_cons_of_mem l hm)
    rw [List.foldl_cons, foldl_orMerge_getD ls (orMerge acc l) hrec i,
      show (orMerge acc l).getD i false = (acc.getD i false || l.getD i false)
        from zipWith_getD or rfl acc l hl.symm i]
    simp [List.any_cons, Bool.or_assoc]

theorem foldl_orMerge_length :
    ∀ (ls : List (List Bool)) (acc : List Bool),
      (∀ l ∈ ls, l.length = acc.length) →
      (ls.foldl orMerge acc).length = acc.length
  | [], acc, _ => rfl
  | l :: ls, acc, h => by
    have hl : l.length = acc.length := h l (List.mem_cons_self l ls)
    have hrec : ∀ l' ∈ ls, l'.length = (orMerge acc l).length := by
      intro l' hm
      rw [orMerge_length acc l hl.symm]
      exact h l' (List.mem_cons_of_mem l hm)
    rw [List.foldl_cons, foldl_orMerge_length ls (orMerge acc l) hrec,
      orMerge_length acc l hl.symm]

theorem eq_of_getD (xs ys : List Bool) (hl : xs.length = ys.length)
    (h : ∀ i, xs.getD i false = ys.getD i false) : xs = ys := by
  apply List.ext_getElem hl
  intro i h1 h2
  have hi := h i
  rwa [List.getD_eq_getElem?_getD, List.getD_eq_getElem?_getD,
    List.getElem?_eq_getElem h1, List.getElem?_eq_getElem h2,
    Option.getD_some, Option.getD_some] at hi

theorem getD_replicate_false : ∀ (n i : ℕ),
    (List.replicate n false).getD i false = false
  | 0, _ => rfl
  | n + 1, 0 => rfl
  | n + 1, i + 1 => by simp [getD_replicate_false n i]

theorem getD_eq_false_of_le (l : List Bool) (i : ℕ) (h : l.length ≤ i) :
    l.getD i false = false := by
  rw [List.getD_eq_getElem?_getD, List.getElem?_eq_none (by omega)]
  rfl

theorem foldl_scatter_select (V : List Bool) (shards : List (List Bool))
    (n : ℕ) (hV : V.length = n)
    (hlen : ∀ sel ∈ shards, sel.length = n)
    (hcov : ∀ i, i < n → ∃ sel ∈ shards, sel.getD i false = true) :
    (shards.map (fun sel => shardScatter sel (shardSelect sel V))).foldl
      orMerge (List.replicate n false) = V := by
  have hmap : shards.map (fun sel => shardScatter sel (shardSelect sel V))
      = shards.map (fun sel => List.zipWith (fun b v => b && v) sel V) :=
    List.map_congr_left (fun sel hm =>
      shardScatter_shardSelect sel V (by rw [hlen sel hm, hV]))
  rw [hmap]
  have hlens : ∀ l ∈ shards.map
      (fun sel => List.zipWith (fun b v => b && v) sel V),
      l.length = (List.replicate n false).length := by
    intro l hm
    obtain ⟨sel, hsel, rfl⟩ := List.mem_map.mp hm
    simp [List.length_zipWith, hlen sel hsel, hV]
  apply eq_of_getD _ _ (by rw [foldl_orMerge_length _ _ hlens]; simp [hV])
  intro i
  rw [foldl_orMerge_getD _ _ hlens i, getD_replicate_false, Bool.false_or,
    List.any_map]
  cases hv : V.getD i false with
  | true =>
    have hin : i < n := by
      by_contra hge
      rw [getD_eq_false_of_le V i (by omega)] at hv
      cases hv
    obtain ⟨sel, hmem, hsel⟩ := hcov i hin
    apply List.any_eq_true.mpr
    refine ⟨sel, hmem, ?_⟩
    show (List.zipWith (fun b v => b && v) sel V).getD i false = true
    rw [zipWith_getD _ rfl sel V (by rw [hlen sel hmem, hV]) i, hsel, hv]
    rfl
  | false =>
    apply List.any_eq_false.mpr
    intro sel hmem
    show ¬(List.zipWith (fun b v => b && v) sel V).getD i false = true
    rw [zipWith_getD _ rfl sel V (by rw [hlen sel hmem, hV]) i, hv]
    simp

/-- C5: sharding the target catalog and merging per-shard crossmatch results
by element-wise OR reproduces the single full run.  For every target set,
mask set, separation function, ellipse test and `inonly` flag: whenever the
full run returns result arrays `(I, N)`, then for every family of shards
(boolean selections of the targets) that covers every target, scattering
each shard's own crossmatch output back to full length and OR-merging the
shards (in any order — the shard list is arbitrary) yields exactly `I` and
`N`. -/
theorem C5_shard_or_merge (sep : SepOracle) (ell : EllOracle)
    (targs : List Targ) (masks : List MaskEntry) (inonly : Bool)
    (I N : List Bool)
    (hrun : is_in_bright_mask sep ell targs masks inonly = some (I, N))
    (shards : List (List Bool))
    (hlen : ∀ sel ∈ shards, sel.length = targs.length)
    (hcov : ∀ i, i < targs.length → ∃ sel ∈ shards, sel.getD i false = true) :
    ((shards.map (fun sel => shardScatter sel
        (((is_in_bright_mask sep ell (shardSelect sel targs) masks inonly).map
          (fun r => r.1)).getD []))).foldl orMerge
        (List.replicate targs.length false) = I)
    ∧ ((shards.map (fun sel => shardScatter sel
        (((is_in_bright_mask sep ell (shardSelect sel targs) masks inonly).map
          (fun r => r.2)).getD []))).foldl orMerge
        (List.replicate targs.length false) = N) := by
  unfold is_in_bright_mask at hrun
  by_cases he : masks.isEmpty
  · rw [if_pos he] at hrun; cases hrun
  rw [if_neg he] at hrun
  have h2 : Option.map (fun res => (res.map Prod.fst, res.map Prod.snd))
      (targs.mapM (inNearOne sep ell masks
        (if inonly = true then maxQ (masks.map MaskEntry.IN_RADIUS)
          else maxQ (masks.map MaskEntry.NEAR_RADIUS)) inonly))
      = some (I, N) := hrun
  cases hm : targs.mapM (inNearOne sep ell masks
      (if inonly = true then maxQ (masks.map MaskEntry.IN_RADIUS)
        else maxQ (masks.map MaskEntry.NEAR_RADIUS)) inonly) with
  | none => rw [hm] at h2; cases h2
  | some res =>
    rw [hm] at h2
    have hpair : (res.map Prod.fst, res.map Prod.snd) = (I, N) := by
      simpa using h2
    have hI : res.map Prod.fst = I := (Prod.mk.injEq _ _ _ _ |>.mp hpair).1
    have hN : res.map Prod.snd = N := (Prod.mk.injEq _ _ _ _ |>.mp hpair).2
    have hreslen : res.length = targs.length := mapM_length _ _ _ hm
    have hshard : ∀ sel : List Bool,
        is_in_bright_mask sep ell (shardSelect sel targs) masks inonly
          = some ((shardSelect sel res).map Prod.fst,
              (shardSelect sel res).map Prod.snd) := by
      intro sel
      unfold is_in_bright_mask
      rw [if_neg he]
      show Option.map (fun res => (res.map Prod.fst, res.map Prod.snd))
          ((shardSelect sel targs).mapM (inNearOne sep ell masks
            (if inonly = true then maxQ (masks.map MaskEntry.IN_RADIUS)
              else maxQ (masks.map MaskEntry.NEAR_RADIUS)) inonly)) = _
      rw [mapM_shardSelect _ sel targs res hm]
      rfl
    have harg1 : ∀ sel : List Bool,
        ((is_in_bright_mask sep ell (shardSelect sel targs) masks inonly).map
          (fun r => r.1)).getD [] = shardSelect sel I := by
      intro sel
      rw [hshard sel]
      show (shardSelect sel res).map Prod.fst = shardSelect sel I
      rw [← hI, shardSelect_map]
    have harg2 : ∀ sel : List Bool,
        ((is_in_bright_mask sep ell (shardSelect sel targs) masks inonly).map
          (fun r => r.2)).getD [] = shardSelect sel N := by
      intro sel
      rw [hshard sel]
      show (shardSelect sel res).map Prod.snd = shardSelect sel N
      rw [← hN, shardSelect_map]
    have hIlen : I.length = targs.length := by
      rw [← hI, List.length_map, hreslen]
    have hNlen : N.length = targs.length := by
      rw [← hN, List.length_map, hreslen]
    constructor
    · rw [List.map_congr_left (fun sel _ => by rw [harg1 sel])]
      exact foldl_scatter_select I shards targs.length hIlen hlen hcov
    · rw [List.map_congr_left (fun sel _ => by rw [harg2 sel])]
      exact foldl_scatter_select N shards targs.length hNlen hlen hcov

/-- C5 witness: two targets at separations 3 and 7 arcsec from one PSF mask
(`in_radius` 5, `near_radius` 10), split into two singleton shards; the full
run gives `in_mask = [T,F]`, `near_mask = [T,T]` and the OR-merge of the two
shard runs reproduces both arrays. -/
theorem C5_shard_or_merge_witness :
    (is_in_bright_mask (fun t _ => ([3, 7] : List ℚ).getD t.BRICK_OBJID 99)
        (fun _ _ _ => some false)
        [⟨0, 0, 0, 0, 0, 0⟩, ⟨0, 0, 1, 0, 0, 0⟩]
        [⟨0, 0, 0, 5, 10, 0, 0, "PSF"⟩] false
        = some ([true, false], [true, true])
      ∧ (∀ sel ∈ [[true, false], [false, true]],
        List.length sel = ([(⟨0, 0, 0, 0, 0, 0⟩ : Targ), ⟨0, 0, 1, 0, 0, 0⟩]).length)
      ∧ (∀ i, i < ([(⟨0, 0, 0, 0, 0, 0⟩ : Targ), ⟨0, 0, 1, 0, 0, 0⟩]).length →
        ∃ sel ∈ [[true, false], [false, true]], sel.getD i false = true))
    ∧ ((([[true, false], [false, true]].map (fun sel => shardScatter sel
        (((is_in_bright_mask (fun t _ => ([3, 7] : List ℚ).getD t.BRICK_OBJID 99)
            (fun _ _ _ => some false)
            (shardSelect sel [⟨0, 0, 0, 0, 0, 0⟩, ⟨0, 0, 1, 0, 0, 0⟩])
            [⟨0, 0, 0, 5, 10, 0, 0, "PSF"⟩] false).map
          (fun r => r.1)).getD []))).foldl orMerge
        (List.replicate ([(⟨0, 0, 0, 0, 0, 0⟩ : Targ), ⟨0, 0, 1, 0, 0, 0⟩]).length false)
        = [true, false])
      ∧ (([[true, false], [false, true]].map (fun sel => shardScatter sel
        (((is_in_bright_mask (fun t _ => ([3, 7] : List ℚ).getD t.BRICK_OBJID 99)
            (fun _ _ _ => some false)
            (shardSelect sel [⟨0, 0, 0, 0, 0, 0⟩, ⟨0, 0, 1, 0, 0, 0⟩])
            [⟨0, 0, 0, 5, 10, 0, 0, "PSF"⟩] false).map
          (fun r => r.2)).getD []))).foldl orMerge
        (List.replicate ([(⟨0, 0, 0, 0, 0, 0⟩ : Targ), ⟨0, 0, 1, 0, 0, 0⟩]).length false)
        = [true, true])) :=
  ⟨⟨by with_unfolding_all decide, by decide, by decide⟩,
    C5_shard_or_merge (fun t _ => ([3, 7] : List ℚ).getD t.BRICK_OBJID 99)
      (fun _ _ _ => some false)
      [⟨0, 0, 0, 0, 0, 0⟩, ⟨0, 0, 1, 0, 0, 0⟩]
      [⟨0, 0, 0, 5, 10, 0, 0, "PSF"⟩] false [true, false] [true, true]
      (by with_unfolding_all decide)
      [[true, false], [false, true]] (by decide) (by decide)⟩

/-! ## Ellipse matrix lemmas -/

theorem ellipse_matrix_a (r e1 e2 : ℝ) : (ellipse_matrix r e1 e2).a
    = r / 3600 * (Real.cos (thetaVal e1 e2) / abVal e1 e2) := rfl

theorem ellipse_matrix_b (r e1 e2 : ℝ) : (ellipse_matrix r e1 e2).b
    = r / 3600 * Real.sin (thetaVal e1 e2) := rfl

theorem ellipse_matrix_c (r e1 e2 : ℝ) : (ellipse_matrix r e1 e2).c
    = r / 3600 * (-Real.sin (thetaVal e1 e2) / abVal e1 e2) := rfl

theorem ellipse_matrix_d (r e1 e2 : ℝ) : (ellipse_matrix r e1 e2).d
    = r / 3600 * Real.cos (thetaVal e1 e2) := rfl

theorem eccVal_nonneg (e1 e2 : ℝ) : 0 ≤ eccVal e1 e2 := Real.sqrt_nonneg _

theorem abVal_pos (e1 e2 : ℝ) : 0 < abVal e1 e2 := by
  unfold abVal
  by_cases he : eccVal e1 e2 < 1
  · rw [if_pos he]
    by_cases hc : (1000 : ℝ) < (1 + eccVal e1 e2) / (1 - eccVal e1 e2)
    · rw [if_pos hc]; norm_num
    · rw [if_neg hc]
      have h0 := eccVal_nonneg e1 e2
      have h1 : (0 : ℝ) < 1 + eccVal e1 e2 := by linarith
      have h2 : (0 : ℝ) < 1 - eccVal e1 e2 := by linarith
      positivity
  · rw [if_neg he]; norm_num

theorem det_ellipse_matrix (r e1 e2 : ℝ) :
    mat2_det (ellipse_matrix r e1 e2) = (r / 3600) ^ 2 / abVal e1 e2 := by
  have hab : abVal e1 e2 ≠ 0 := ne_of_gt (abVal_pos e1 e2)
  unfold mat2_det
  rw [ellipse_matrix_a, ellipse_matrix_b, ellipse_matrix_c, ellipse_matrix_d]
  have h : r / 3600 * (Real.cos (thetaVal e1 e2) / abVal e1 e2)
        * (r / 3600 * Real.cos (thetaVal e1 e2))
      - r / 3600 * Real.sin (thetaVal e1 e2)
        * (r / 3600 * (-Real.sin (thetaVal e1 e2) / abVal e1 e2))
      = (r / 3600) ^ 2
        * ((Real.cos (thetaVal e1 e2)) ^ 2 + (Real.sin (thetaVal e1 e2)) ^ 2)
        / abVal e1 e2 := by
    field_simp
    linear_combination r ^ 2 * abVal e1 e2 ^ 2 * 167961600000000
      * Real.cos_sq_add_sin_sq (thetaVal e1 e2)
  rw [h, Real.cos_sq_add_sin_sq]
  ring

theorem det_ellipse_matrix_eq_zero_iff (r e1 e2 : ℝ) :
    mat2_det (ellipse_matrix r e1 e2) = 0 ↔ r = 0 := by
  rw [det_ellipse_matrix]
  have hab : abVal e1 e2 ≠ 0 := ne_of_gt (abVal_pos e1 e2)
  rw [div_eq_zero_iff]
  constructor
  · rintro (h | h)
    · have := pow_eq_zero_iff (n := 2) (by norm_num) |>.mp h
      field_simp at this
      exact this
    · exact absurd h hab
  · rintro rfl
    left; norm_num

open Classical in
theorem is_in_ellipse_shape (ras decs RAcen DECcen r e1 e2 : ℝ) :
    is_in_ellipse ras decs RAcen DECcen r e1 e2
      = if mat2_det (ellipse_matrix r e1 e2) = 0 then none
        else some (decide (Real.sqrt
          ((ellOffset ras decs RAcen DECcen
              (mat2_inv (ellipse_matrix r e1 e2))).1 ^ 2
            + (ellOffset ras decs RAcen DECcen
              (mat2_inv (ellipse_matrix r e1 e2))).2 ^ 2) < 1)) := rfl

/-- C9 counterexample: a query against an ellipse mask of half-light radius 0
(zero-determinant transform matrix) does not return a boolean: the inversion
raises (`none`); no epsilon regularization exists in the code. -/
theorem C9_counterexample_singular_inv :
    is_in_ellipse 0 0 0 0 0 0 0 = none := by
  rw [is_in_ellipse_shape]
  rw [if_pos ((det_ellipse_matrix_eq_zero_iff 0 0 0).mpr rfl)]

/-- C9 (amended): the 2x2 ellipse transform has determinant
`(r/3600)^2 / ab` with `1 ≤ ab ≤ 1000`, so the determinant is zero exactly
when the half-light radius is zero; in that case `np.linalg.inv` raises a
`LinAlgError` that `is_in_ellipse` does NOT handle (the error propagates to
the caller); for every nonzero radius the test returns a boolean.  The only
locally handled edge case is the axis-ratio clamp inside `ellipse_matrix`. -/
theorem C9_singular_matrix_error (ras decs RAcen DECcen r e1 e2 : ℝ) :
    (mat2_det (ellipse_matrix r e1 e2) = 0 ↔ r = 0)
    ∧ (r = 0 → is_in_ellipse ras decs RAcen DECcen r e1 e2 = none)
    ∧ (r ≠ 0 → ∃ b, is_in_ellipse ras decs RAcen DECcen r e1 e2 = some b) := by
  refine ⟨det_ellipse_matrix_eq_zero_iff r e1 e2, ?_, ?_⟩
  · intro hr
    rw [is_in_ellipse_shape,
      if_pos ((det_ellipse_matrix_eq_zero_iff r e1 e2).mpr hr)]
  · intro hr
    rw [is_in_ellipse_shape, if_neg (fun hc =>
      hr ((det_ellipse_matrix_eq_zero_iff r e1 e2).mp hc))]
    exact ⟨_, rfl⟩

/-- C9 witness: at radius 1 (nonzero determinant) the test returns a boolean;
instantiates the amended theorem at a concrete query. -/
theorem C9_singular_matrix_error_witness :
    ((1 : ℝ) ≠ 0)
    ∧ (mat2_det (ellipse_matrix 1 0 0) = 0 ↔ (1 : ℝ) = 0)
    ∧ ((1 : ℝ) = 0 → is_in_ellipse 2 3 0 0 1 0 0 = none)
    ∧ ((1 : ℝ) ≠ 0 → ∃ b, is_in_ellipse 2 3 0 0 1 0 0 = some b) :=
  ⟨by norm_num, (C9_singular_matrix_error 2 3 0 0 1 0 0).1,
    (C9_singular_matrix_error 2 3 0 0 1 0 0).2.1,
    (C9_singular_matrix_error 2 3 0 0 1 0 0).2.2⟩

/-- C2: for every ellipse mask with positive half-light radius (and a query
declination where the `cos(dec)` correction is nondegenerate),
`is_in_ellipse` returns `True` at the mask's own center, returns `False` at
the exact semi-major-axis boundary endpoint (the image of the unit vector
`(0,1)` under the ellipse transform, projected to the sphere), and in general
answers `True` exactly when the inverse-transformed tangent-plane offset
vector has Euclidean norm strictly less than 1. -/
theorem C2_is_in_ellipse_center_boundary (RAcen DECcen r e1 e2 : ℝ)
    (hr : 0 < r)
    (hcos : Real.cos (radiansR
      (DECcen + r / 3600 * Real.cos (thetaVal e1 e2))) ≠ 0) :
    is_in_ellipse RAcen DECcen RAcen DECcen r e1 e2 = some true
    ∧ is_in_ellipse
        (RAcen + r / 3600 * Real.sin (thetaVal e1 e2)
          / Real.cos (radiansR (DECcen + r / 3600 * Real.cos (thetaVal e1 e2))))
        (DECcen + r / 3600 * Real.cos (thetaVal e1 e2))
        RAcen DECcen r e1 e2 = some false
    ∧ (∀ ras decs : ℝ,
        is_in_ellipse ras decs RAcen DECcen r e1 e2 = some true
          ↔ Real.sqrt ((ellOffset ras decs RAcen DECcen
              (mat2_inv (ellipse_matrix r e1 e2))).1 ^ 2
            + (ellOffset ras decs RAcen DECcen
              (mat2_inv (ellipse_matrix r e1 e2))).2 ^ 2) < 1) := by
  have hrne : r ≠ 0 := ne_of_gt hr
  have hdetne : mat2_det (ellipse_matrix r e1 e2) ≠ 0 :=
    fun hc => hrne ((det_ellipse_matrix_eq_zero_iff r e1 e2).mp hc)
  have hab : abVal e1 e2 ≠ 0 := ne_of_gt (abVal_pos e1 e2)
  have hrd : r / 3600 ≠ 0 := div_ne_zero hrne (by norm_num)
  refine ⟨?_, ?_, ?_⟩
  · rw [is_in_ellipse_shape, if_neg hdetne]
    have hv : ellOffset RAcen DECcen RAcen DECcen
        (mat2_inv (ellipse_matrix r e1 e2)) = (0, 0) := by
      unfold ellOffset
      simp
    rw [hv]
    have h1 : Real.sqrt ((0 : ℝ) ^ 2 + (0 : ℝ) ^ 2) < 1 := by
      norm_num
    simp [h1]
  · rw [is_in_ellipse_shape, if_neg hdetne]
    have hdra : (RAcen + r / 3600 * Real.sin (thetaVal e1 e2)
          / Real.cos (radiansR (DECcen + r / 3600 * Real.cos (thetaVal e1 e2)))
          - RAcen)
        * Real.cos (radiansR (DECcen + r / 3600 * Real.cos (thetaVal e1 e2)))
        = r / 3600 * Real.sin (thetaVal e1 e2) := by
      rw [add_sub_cancel_left]
      exact div_mul_cancel₀ _ hcos
    have hddec : DECcen + r / 3600 * Real.cos (thetaVal e1 e2) - DECcen
        = r / 3600 * Real.cos (thetaVal e1 e2) := by ring
    have hv : ellOffset
        (RAcen + r / 3600 * Real.sin (thetaVal e1 e2)
          / Real.cos (radiansR (DECcen + r / 3600 * Real.cos (thetaVal e1 e2))))
        (DECcen + r / 3600 * Real.cos (thetaVal e1 e2)) RAcen DECcen
        (mat2_inv (ellipse_matrix r e1 e2)) = (0, 1) := by
      unfold ellOffset mat2_inv
      rw [ellipse_matrix_a, ellipse_matrix_b, ellipse_matrix_c,
        ellipse_matrix_d, det_ellipse_matrix]
      simp only [hdra, hddec]
      have hPair : ∀ x y : ℝ, (x, y) = ((0 : ℝ), (1 : ℝ)) ↔ x = 0 ∧ y = 1 := by
        intro x y
        rw [Prod.mk.injEq]
      rw [hPair]
      constructor
      · field_simp
        ring
      · field_simp
        linear_combination (r ^ 2 * abVal e1 e2 * 12960000)
          * Real.sin_sq_add_cos_sq (thetaVal e1 e2)
    rw [hv]
    have h1 : ¬ Real.sqrt ((0 : ℝ) ^ 2 + (1 : ℝ) ^ 2) < 1 := by
      norm_num
    simp [h1]
  · intro ras decs
    rw [is_in_ellipse_shape, if_neg hdetne]
    constructor
    · intro h
      exact of_decide_eq_true (Option.some.inj h)
    · intro h
      exact congrArg some (decide_eq_true h)

/-- C2 witness: the circle case `r = 3600` arcsec (1 degree), `e1 = e2 = 0`,
centered at the origin: the position angle is `arctan2(0,0)/2 = 0`, the
boundary dec is 1 degree, and `cos(pi/180)` is nonzero. -/
theorem C2_is_in_ellipse_center_boundary_witness :
    ((0 : ℝ) < 3600
      ∧ Real.cos (radiansR (0 + 3600 / 3600 * Real.cos (thetaVal 0 0))) ≠ 0)
    ∧ (is_in_ellipse 0 0 0 0 3600 0 0 = some true
      ∧ is_in_ellipse
          (0 + 3600 / 3600 * Real.sin (thetaVal 0 0)
            / Real.cos (radiansR (0 + 3600 / 3600 * Real.cos (thetaVal 0 0))))
          (0 + 3600 / 3600 * Real.cos (thetaVal 0 0)) 0 0 3600 0 0 = some false
      ∧ (∀ ras decs : ℝ,
          is_in_ellipse ras decs 0 0 3600 0 0 = some true
            ↔ Real.sqrt ((ellOffset ras decs 0 0
                (mat2_inv (ellipse_matrix 3600 0 0))).1 ^ 2
              + (ellOffset ras decs 0 0
                (mat2_inv (ellipse_matrix 3600 0 0))).2 ^ 2) < 1)) := by
  have hth : thetaVal 0 0 = 0 := by
    unfold thetaVal atan2
    rw [show (⟨0, 0⟩ : ℂ) = 0 from Complex.ext rfl rfl, Complex.arg_zero]
    norm_num
  have hcos : Real.cos (radiansR (0 + 3600 / 3600 * Real.cos (thetaVal 0 0))) ≠ 0 := by
    rw [hth]
    norm_num [radiansR]
    refine ne_of_gt (Real.cos_pos_of_mem_Ioo ⟨?_, ?_⟩)
    · nlinarith [Real.pi_pos]
    · nlinarith [Real.pi_pos]
  exact ⟨⟨by norm_num, hcos⟩,
    C2_is_in_ellipse_center_boundary 0 0 3600 0 0 (by norm_num) hcos⟩

/-! ## Circle-case ellipse boundary evaluation -/

theorem thetaVal_zero : thetaVal 0 0 = 0 := by
  unfold thetaVal atan2
  rw [show (⟨0, 0⟩ : ℂ) = 0 from Complex.ext rfl rfl, Complex.arg_zero]
  norm_num

theorem abVal_zero : abVal 0 0 = 1 := by
  unfold abVal eccVal
  rw [show Real.sqrt ((0:ℝ) ^ 2 + (0:ℝ) ^ 2) = 0 by norm_num]
  norm_num

theorem em_circle_a : (ellipse_matrix 3600 0 0).a = 1 := by
  rw [ellipse_matrix_a, thetaVal_zero, abVal_zero]; norm_num

theorem em_circle_b : (ellipse_matrix 3600 0 0).b = 0 := by
  rw [ellipse_matrix_b, thetaVal_zero]; norm_num

theorem em_circle_c : (ellipse_matrix 3600 0 0).c = 0 := by
  rw [ellipse_matrix_c, thetaVal_zero, abVal_zero]; norm_num

theorem em_circle_d : (ellipse_matrix 3600 0 0).d = 1 := by
  rw [ellipse_matrix_d, thetaVal_zero]; norm_num

theorem ellipse_boundary_ras (RAcen DECcen r e1 e2 : ℝ) (nloc : ℕ) :
    (ellipse_boundary RAcen DECcen r e1 e2 nloc).1
      = (linspace 0 (2 * Real.pi) nloc).map (fun ang =>
          RAcen + ((ellipse_matrix r e1 e2).a * Real.sin ang
              + (ellipse_matrix r e1 e2).b * Real.cos ang)
            / Real.cos (radiansR (DECcen
              + ((ellipse_matrix r e1 e2).c * Real.sin ang
                + (ellipse_matrix r e1 e2).d * Real.cos ang)))) := by
  show List.map Prod.fst (List.map (fun ang =>
      (RAcen + ((ellipse_matrix r e1 e2).a * Real.sin ang
          + (ellipse_matrix r e1 e2).b * Real.cos ang)
        / Real.cos (radiansR (DECcen
          + ((ellipse_matrix r e1 e2).c * Real.sin ang
            + (ellipse_matrix r e1 e2).d * Real.cos ang))),
       DECcen + ((ellipse_matrix r e1 e2).c * Real.sin ang
         + (ellipse_matrix r e1 e2).d * Real.cos ang)))
    (linspace 0 (2 * Real.pi) nloc)) = _
  rw [List.map_map]
  rfl

theorem ellipse_boundary_decs (RAcen DECcen r e1 e2 : ℝ) (nloc : ℕ) :
    (ellipse_boundary RAcen DECcen r e1 e2 nloc).2
      = (linspace 0 (2 * Real.pi) nloc).map (fun ang =>
          DECcen + ((ellipse_matrix r e1 e2).c * Real.sin ang
            + (ellipse_matrix r e1 e2).d * Real.cos ang)) := by
  show List.map Prod.snd (List.map (fun ang =>
      (RAcen + ((ellipse_matrix r e1 e2).a * Real.sin ang
          + (ellipse_matrix r e1 e2).b * Real.cos ang)
        / Real.cos (radiansR (DECcen
          + ((ellipse_matrix r e1 e2).c * Real.sin ang
            + (ellipse_matrix r e1 e2).d * Real.cos ang))),
       DECcen + ((ellipse_matrix r e1 e2).c * Real.sin ang
         + (ellipse_matrix r e1 e2).d * Real.cos ang)))
    (linspace 0 (2 * Real.pi) nloc)) = _
  rw [List.map_map]
  rfl

theorem linspace_four : linspace 0 (2 * Real.pi) 4
    = [0, 2 * Real.pi / 3, 4 * Real.pi / 3, 2 * Real.pi] := by
  unfold linspace
  rw [if_neg (by norm_num), show List.range 4 = [0, 1, 2, 3] from rfl]
  norm_num
  ring

theorem cos_two_pi_div_three : Real.cos (2 * Real.pi / 3) = -(1 / 2) := by
  rw [show 2 * Real.pi / 3 = Real.pi - Real.pi / 3 by ring, Real.cos_pi_sub,
    Real.cos_pi_div_three]

theorem sin_two_pi_div_three : Real.sin (2 * Real.pi / 3) = Real.sqrt 3 / 2 := by
  rw [show 2 * Real.pi / 3 = Real.pi - Real.pi / 3 by ring, Real.sin_pi_sub,
    Real.sin_pi_div_three]

theorem cos_four_pi_div_three : Real.cos (4 * Real.pi / 3) = -(1 / 2) := by
  rw [show 4 * Real.pi / 3 = -(2 * Real.pi / 3) + 2 * Real.pi by ring,
    Real.cos_add_two_pi, Real.cos_neg, cos_two_pi_div_three]

theorem sin_four_pi_div_three : Real.sin (4 * Real.pi / 3)
    = -(Real.sqrt 3 / 2) := by
  rw [show 4 * Real.pi / 3 = -(2 * Real.pi / 3) + 2 * Real.pi by ring,
    Real.sin_add_two_pi, Real.sin_neg, sin_two_pi_div_three]

theorem eb_circle4_decs : (ellipse_boundary 0 0 3600 0 0 4).2
    = [1, -(1 / 2), -(1 / 2), 1] := by
  rw [ellipse_boundary_decs, linspace_four]
  simp only [List.map_cons, List.map_nil, em_circle_c, em_circle_d]
  rw [Real.cos_zero, Real.cos_two_pi, cos_two_pi_div_three,
    cos_four_pi_div_three]
  norm_num

theorem eb_circle4_ras : (ellipse_boundary 0 0 3600 0 0 4).1
    = [0, Real.sqrt 3 / 2 / Real.cos (radiansR (-(1 / 2))),
        -(Real.sqrt 3 / 2) / Real.cos (radiansR (-(1 / 2))), 0] := by
  rw [ellipse_boundary_ras, linspace_four]
  simp only [List.map_cons, List.map_nil, em_circle_a, em_circle_b,
    em_circle_c, em_circle_d]
  rw [Real.cos_zero, Real.cos_two_pi, cos_two_pi_div_three,
    cos_four_pi_div_three, Real.sin_zero, Real.sin_two_pi,
    sin_two_pi_div_three, sin_four_pi_div_three]
  norm_num

theorem cos_radiansR_pos (x : ℝ) (hx : |x| ≤ 1) :
    0 < Real.cos (radiansR x) := by
  obtain ⟨h1, h2⟩ := abs_le.mp hx
  apply Real.cos_pos_of_mem_Ioo
  unfold radiansR
  constructor
  · nlinarith [Real.pi_pos]
  · nlinarith [Real.pi_pos]

/-- C8 counterexample: with `nloc = 4` and zero ellipticity the generator
does not produce 4 points equally spaced on the circle.  Since `np.linspace`
includes the 2π endpoint, the four points sit at parametric angles 0, 120,
240, 360 degrees: the declinations are `[1, -1/2, -1/2, 1]`, the first and
last points coincide, and no starting angle φ can realize these declination
offsets as four 90-degree-spaced circle points `cos φ, cos (φ + π/2), ...`
(already the first two values are jointly impossible). -/
theorem C8_counterexample :
    (ellipse_boundary 0 0 3600 0 0 4).2 = [1, -(1 / 2), -(1 / 2), 1]
    ∧ ((ellipse_boundary 0 0 3600 0 0 4).1.getD 0 0
          = (ellipse_boundary 0 0 3600 0 0 4).1.getD 3 0
      ∧ (ellipse_boundary 0 0 3600 0 0 4).2.getD 0 0
          = (ellipse_boundary 0 0 3600 0 0 4).2.getD 3 0)
    ∧ (∀ phi : ℝ, ¬((1 : ℝ) = Real.cos phi
        ∧ (-(1 / 2) : ℝ) = Real.cos (phi + Real.pi / 2))) := by
  refine ⟨eb_circle4_decs, ⟨?_, ?_⟩, ?_⟩
  · rw [eb_circle4_ras]; rfl
  · rw [eb_circle4_decs]; rfl
  · rintro phi ⟨h1, h2⟩
    rw [Real.cos_add_pi_div_two] at h2
    have hsq : Real.sin phi ^ 2 = 0 := by
      nlinarith [Real.sin_sq_add_cos_sq phi]
    have hs : Real.sin phi = 0 := by
      exact pow_eq_zero_iff (two_ne_zero) |>.mp hsq
    rw [hs] at h2
    norm_num at h2

/-- C8 (amended): the boundary generator places its `nloc` points at the
parametric angles `k * 2π/(nloc-1)` — evenly spaced in parametric angle, but
with both endpoints included (`np.linspace`), so the first angle is 0, the
last is 2π, and the first and last points coincide.  With `nloc = 4` and zero
ellipticity the four points lie on the circle of angular radius `r`
(`r/3600 = 1` degree here) around the center — at parametric angles 0, 120,
240 and 360 degrees, i.e. only `nloc - 1` distinct equally spaced
positions. -/
theorem C8_boundary_parametrization (nloc : ℕ) (hn : 2 ≤ nloc) :
    (linspace 0 (2 * Real.pi) nloc
      = (List.range nloc).map
          (fun k : ℕ => (k : ℝ) * (2 * Real.pi) / ((nloc : ℝ) - 1)))
    ∧ (linspace 0 (2 * Real.pi) nloc).getD 0 0 = 0
    ∧ (linspace 0 (2 * Real.pi) nloc).getD (nloc - 1) 0 = 2 * Real.pi
    ∧ (∀ i : Fin 4,
        ((ellipse_boundary 0 0 3600 0 0 4).1.getD (i : ℕ) 0
            * Real.cos (radiansR
              ((ellipse_boundary 0 0 3600 0 0 4).2.getD (i : ℕ) 0))) ^ 2
          + ((ellipse_boundary 0 0 3600 0 0 4).2.getD (i : ℕ) 0) ^ 2
          = 1) := by
  have hne : nloc ≠ 1 := by omega
  have h1 : linspace 0 (2 * Real.pi) nloc
      = (List.range nloc).map
          (fun k : ℕ => (k : ℝ) * (2 * Real.pi) / ((nloc : ℝ) - 1)) := by
    unfold linspace
    rw [if_neg hne]
    exact List.map_congr_left (fun k _ => by ring)
  have hcast : ((nloc : ℝ) - 1) ≠ 0 := by
    have h2 : (2 : ℝ) ≤ (nloc : ℝ) := by exact_mod_cast hn
    linarith
  refine ⟨h1, ?_, ?_, ?_⟩
  · rw [h1, List.getD_eq_getElem?_getD, List.getElem?_map,
      List.getElem?_range (show 0 < nloc by omega)]
    simp
  · rw [h1, List.getD_eq_getElem?_getD, List.getElem?_map,
      List.getElem?_range (show nloc - 1 < nloc by omega)]
    have hc : ((nloc - 1 : ℕ) : ℝ) = (nloc : ℝ) - 1 := by
      push_cast [Nat.cast_sub (show 1 ≤ nloc by omega)]
      ring
    show ((nloc - 1 : ℕ) : ℝ) * (2 * Real.pi) / ((nloc : ℝ) - 1) = 2 * Real.pi
    rw [hc]
    field_simp
  · intro i
    have hc2 : Real.cos (radiansR (-(1 / 2))) ≠ 0 :=
      ne_of_gt (cos_radiansR_pos (-(1 / 2))
        (by rw [abs_le]; constructor <;> norm_num))
    have hs3 : Real.sqrt 3 ^ 2 = 3 := Real.sq_sqrt (by norm_num)
    fin_cases i
    · rw [eb_circle4_ras, eb_circle4_decs]
      norm_num
    · rw [eb_circle4_ras, eb_circle4_decs]
      simp only [List.getD_cons_succ, List.getD_cons_zero]
      rw [div_mul_cancel₀ _ hc2, div_pow, hs3]
      norm_num
    · rw [eb_circle4_ras, eb_circle4_decs]
      simp only [List.getD_cons_succ, List.getD_cons_zero]
      rw [div_mul_cancel₀ _ hc2, neg_sq, div_pow, hs3]
      norm_num
    · rw [eb_circle4_ras, eb_circle4_decs]
      norm_num

/-- C8 witness: the amended parametrization theorem applied at `nloc = 4`. -/
theorem C8_boundary_parametrization_witness :
    2 ≤ 4
    ∧ ((linspace 0 (2 * Real.pi) 4
        = (List.range 4).map
            (fun k : ℕ => (k : ℝ) * (2 * Real.pi) / (((4 : ℕ) : ℝ) - 1)))
      ∧ (linspace 0 (2 * Real.pi) 4).getD 0 0 = 0
      ∧ (linspace 0 (2 * Real.pi) 4).getD (4 - 1) 0 = 2 * Real.pi
      ∧ (∀ i : Fin 4,
          ((ellipse_boundary 0 0 3600 0 0 4).1.getD (i : ℕ) 0
              * Real.cos (radiansR
                ((ellipse_boundary 0 0 3600 0 0 4).2.getD (i : ℕ) 0))) ^ 2
            + ((ellipse_boundary 0 0 3600 0 0 4).2.getD (i : ℕ) 0) ^ 2
            = 1)) :=
  ⟨by norm_num, C8_boundary_parametrization 4 (by norm_num)⟩

/-! ## Safe-location lemmas -/

